import Mathlib

/-!
Shallow embedding of the task-manager service in src/main.py.

Modelling choices, each tied to a line of the source:
* A task row (`Task`) mirrors the `tasks` table / `Task` pydantic model:
  id TEXT PRIMARY KEY, name TEXT, status TEXT, created_at TEXT,
  completed_at TEXT.  Identifiers are modelled as `Nat`; timestamps
  (ISO-8601 strings produced by `datetime.now().isoformat()`, whose
  lexicographic order agrees with chronological order) are modelled as
  `Nat` time units.
* The SQLite table is a `List Task` in insertion (rowid) order.
* `uuid.uuid4()` is modelled as a fresh-identifier supply: a counter
  `nextId` together with a ghost list `createdIds` of every identifier the
  supply has handed out, so freshness is a provable invariant rather than
  a probabilistic fact.
* The background thread started by `create_task` (`time.sleep(20)` then an
  UPDATE) is modelled as a pending one-shot timer `(fireTime, taskId)`
  with `fireTime = creation time + 20`; a `fire` step may run the timer
  body at any instant at or after `fireTime`.
* `HTTPException(404)` is the `ApiError.notFound` error of an `Except`.
-/

namespace TaskAPI

/-- Row of the `tasks` table, also the `Task` response model of main.py. -/
structure Task where
  id : Nat
  name : Option String
  status : String
  created_at : Nat
  completed_at : Option Nat
  deriving Repr, DecidableEq

/-- Body of a PATCH request, the `TaskUpdate` pydantic model. -/
structure TaskUpdate where
  status : Option String := none
  name : Option String := none
  deriving Repr, DecidableEq

/-- Errors the endpoints can raise: only `HTTPException(404, "Task not found")`. -/
inductive ApiError where
  | notFound
  deriving Repr, DecidableEq

/-- Python truthiness of an `Optional[str]` value: `None` and the empty
string are falsy; main.py branches on `if status:` / `if task_data.name:`. -/
def strGiven : Option String → Bool
  | none => false
  | some s => !(s == "")

/-- SELECT * FROM tasks WHERE id = ? ... fetchone(): the first row with the
given id, if any. -/
def selectTask (tasks : List Task) (id : Nat) : Option Task :=
  tasks.find? (fun t => t.id == id)

/-- Comparison used by ORDER BY created_at DESC: later rows sort first. -/
def createdDesc (a b : Task) : Prop :=
  b.created_at ≤ a.created_at

instance : DecidableRel createdDesc :=
  fun a b => Nat.decLe b.created_at a.created_at

instance : IsTotal Task createdDesc :=
  ⟨fun a b => Nat.le_total b.created_at a.created_at⟩

instance : IsTrans Task createdDesc :=
  ⟨fun _ _ _ hab hbc => Nat.le_trans hbc hab⟩

/-- ORDER BY created_at DESC. -/
def sortDesc (l : List Task) : List Task :=
  List.insertionSort createdDesc l

/-- The optional WHERE status = ? clause: main.py adds it only under
`if status:`, so `None` and `""` mean no filtering. -/
def filterStatus (status : Option String) (tasks : List Task) : List Task :=
  match status with
  | some st => if st = "" then tasks else tasks.filter (fun t => t.status == st)
  | none => tasks

/-- The optional LIMIT ? clause: main.py adds it only under `if limit:`,
so `None` and `0` leave the result uncapped; SQLite itself treats a
negative LIMIT operand as "no limit". -/
def applyLimit (limit : Option Int) (tasks : List Task) : List Task :=
  match limit with
  | some n =>
      if n = 0 then tasks
      else if n < 0 then tasks
      else tasks.take n.toNat
  | none => tasks

/-- GET /tasks (`list_tasks` in main.py): optional status filter, ORDER BY
created_at DESC, optional limit. -/
def list_tasks (tasks : List Task) (status : Option String) (limit : Option Int) :
    List Task :=
  applyLimit limit (sortDesc (filterStatus status tasks))

/-- GET /tasks/\x7btask_id\x7d (`get_task` in main.py): 404 when the row is
absent, otherwise the row. -/
def get_task (tasks : List Task) (id : Nat) : Except ApiError Task :=
  match selectTask tasks id with
  | none => Except.error ApiError.notFound
  | some t => Except.ok t

/-- Effect of the UPDATE statement `update_task` builds on one row: the
`updates` dict gets `status` when truthy — plus `completed_at = now` when
that status is exactly "completed" — and `name` when truthy. -/
def apply_updates (u : TaskUpdate) (tnow : Nat) (t : Task) : Task :=
  let t1 :=
    match u.status with
    | some st =>
        if st = "" then t
        else if st = "completed" then { t with status := st, completed_at := some tnow }
        else { t with status := st }
    | none => t
  match u.name with
  | some nm => if nm = "" then t1 else { t1 with name := some nm }
  | none => t1

/-- Whether the `updates` dict built by `update_task` is nonempty
(`if updates:` in main.py). -/
def hasUpdates (u : TaskUpdate) : Bool :=
  strGiven u.status || strGiven u.name

/-- PATCH /tasks/\x7btask_id\x7d (`update_task` in main.py): 404 when the row
is absent; otherwise run the UPDATE when the dict is nonempty, then
re-SELECT the row and return it. -/
def update_task (tasks : List Task) (tnow : Nat) (id : Nat) (u : TaskUpdate) :
    Except ApiError (Task × List Task) :=
  match selectTask tasks id with
  | none => Except.error ApiError.notFound
  | some _ =>
      let tasks' :=
        if hasUpdates u then
          tasks.map (fun t => if t.id == id then apply_updates u tnow t else t)
        else tasks
      match selectTask tasks' id with
      | some t' => Except.ok (t', tasks')
      | none => Except.error ApiError.notFound

/-- DELETE /tasks/\x7btask_id\x7d (`delete_task` in main.py): run
DELETE FROM tasks WHERE id = ?, then 404 when rowcount was 0. -/
def delete_task (tasks : List Task) (id : Nat) : Except ApiError (List Task) :=
  let remaining := tasks.filter (fun t => !(t.id == id))
  if tasks.countP (fun t => t.id == id) == 0 then Except.error ApiError.notFound
  else Except.ok remaining

/-- Body of the background thread armed by `create_task`, run at time
`tnow`: UPDATE tasks SET status = "completed", completed_at = ? WHERE
id = ? — touching zero rows when the id is gone, never raising. -/
def complete_task (tasks : List Task) (tnow : Nat) (id : Nat) : List Task :=
  tasks.map (fun t =>
    if t.id == id then { t with status := "completed", completed_at := some tnow } else t)

/-- Delay before the background thread completes a task
(`time.sleep(20)` in main.py). -/
def DELAY : Nat := 20

/-- Whole-system state: the table, the current clock, the fresh-id supply
(counter plus ghost list of ids ever generated), and the armed one-shot
completion timers `(fireTime, taskId)`. -/
structure Sys where
  store : List Task
  now : Nat
  nextId : Nat
  pending : List (Nat × Nat)
  createdIds : List Nat
  deriving Repr, DecidableEq

/-- POST /tasks (`create_task` in main.py): build the record with a fresh
id, status "running", `created_at` = now, no `completed_at`; INSERT it;
arm the one-shot completion timer for `now + DELAY`; return the record
immediately, before the timer can run. -/
def create_task (s : Sys) (name : Option String) : Task × Sys :=
  let task : Task :=
    { id := s.nextId, name := name, status := "running",
      created_at := s.now, completed_at := none }
  (task,
    { store := s.store ++ [task]
      now := s.now
      nextId := s.nextId + 1
      pending := s.pending ++ [(s.now + DELAY, task.id)]
      createdIds := s.createdIds ++ [task.id] })

/-- The empty freshly-initialised system (`init_db` plus a fresh process). -/
def init : Sys :=
  { store := [], now := 0, nextId := 0, pending := [], createdIds := [] }

/-- One observable step of the system: a create request, the clock
advancing, an armed timer firing at or after its due time, or a
successful update or delete request.  (Reads and failed requests do not
change the state.) -/
inductive Step : Sys → Sys → Prop where
  | create (s : Sys) (name : Option String) :
      Step s (create_task s name).2
  | tick (s : Sys) (dt : Nat) :
      Step s { s with now := s.now + dt }
  | fire (s : Sys) (ft id : Nat) (hmem : (ft, id) ∈ s.pending) (hdue : ft ≤ s.now) :
      Step s { s with
                store := complete_task s.store s.now id
                pending := s.pending.erase (ft, id) }
  | update (s : Sys) (id : Nat) (u : TaskUpdate) (t' : Task) (store' : List Task)
      (h : update_task s.store s.now id u = Except.ok (t', store')) :
      Step s { s with store := store' }
  | delete (s : Sys) (id : Nat) (store' : List Task)
      (h : delete_task s.store id = Except.ok store') :
      Step s { s with store := store' }

/-- States reachable from the freshly-initialised system. -/
inductive Reachable : Sys → Prop where
  | init : Reachable init
  | step {s s' : Sys} : Reachable s → Step s s' → Reachable s'

/-- System invariant: every stored id and every id ever generated is below
the fresh-id counter, stored ids are pairwise distinct, pending timers
refer to already-generated ids, and a pending timer for a still-stored
task is due exactly `DELAY` after that task's creation time. -/
def Inv (s : Sys) : Prop :=
  (∀ t ∈ s.store, t.id < s.nextId)
  ∧ (∀ i ∈ s.createdIds, i < s.nextId)
  ∧ (s.store.map Task.id).Nodup
  ∧ (∀ p ∈ s.pending, p.2 < s.nextId)
  ∧ (∀ p ∈ s.pending, ∀ t ∈ s.store, t.id = p.2 → p.1 = t.created_at + DELAY)

/-! Helper lemmas about the store operations. -/

theorem selectTask_map (tasks : List Task) (f : Task → Task)
    (hf : ∀ t, (f t).id = t.id) (id : Nat) :
    selectTask (tasks.map f) id = (selectTask tasks id).map f := by
  unfold selectTask
  rw [List.find?_map]
  have hp : ((fun t : Task => t.id == id) ∘ f) = fun t : Task => t.id == id := by
    funext t
    simp [Function.comp, hf]
  rw [hp]

theorem selectTask_some_mem (tasks : List Task) (id : Nat) (t : Task)
    (h : selectTask tasks id = some t) : t ∈ tasks ∧ t.id = id := by
  refine ⟨List.mem_of_find?_eq_some h, ?_⟩
  have hp := List.find?_some h
  simpa using hp

theorem selectTask_eq_some_of_mem (tasks : List Task) (t : Task)
    (hnd : (tasks.map Task.id).Nodup) (ht : t ∈ tasks) :
    selectTask tasks t.id = some t := by
  induction tasks with
  | nil => cases ht
  | cons a l ih =>
    simp only [List.map_cons, List.nodup_cons] at hnd
    rcases List.mem_cons.mp ht with rfl | hmem
    · exact List.find?_cons_of_pos _ (by simp)
    · have hne : ¬ ((a.id == t.id) = true) := by
        simp only [beq_iff_eq]
        intro h
        exact hnd.1 (h ▸ List.mem_map_of_mem Task.id hmem)
      have hrec := ih hnd.2 hmem
      calc selectTask (a :: l) t.id
          = List.find? (fun x : Task => x.id == t.id) l :=
            List.find?_cons_of_neg _ hne
        _ = some t := hrec

theorem selectTask_eq_none (tasks : List Task) (id : Nat)
    (h : ∀ t ∈ tasks, t.id ≠ id) : selectTask tasks id = none := by
  unfold selectTask
  rw [List.find?_eq_none]
  intro t ht
  simpa using h t ht

theorem map_id_of_mem (l : List Task) (f : Task → Task) (h : ∀ t ∈ l, f t = t) :
    l.map f = l := by
  rw [List.map_congr_left h]
  exact List.map_id' l

theorem apply_updates_id (u : TaskUpdate) (tnow : Nat) (t : Task) :
    (apply_updates u tnow t).id = t.id := by
  rcases u with ⟨us, un⟩
  cases us <;> cases un <;> simp only [apply_updates] <;> split_ifs <;> rfl

theorem apply_updates_created (u : TaskUpdate) (tnow : Nat) (t : Task) :
    (apply_updates u tnow t).created_at = t.created_at := by
  rcases u with ⟨us, un⟩
  cases us <;> cases un <;> simp only [apply_updates] <;> split_ifs <;> rfl

theorem update_task_eq (tasks : List Task) (tnow id : Nat) (u : TaskUpdate) (t : Task)
    (h : selectTask tasks id = some t) :
    update_task tasks tnow id u =
      if hasUpdates u then
        Except.ok (apply_updates u tnow t,
          tasks.map (fun x => if x.id == id then apply_updates u tnow x else x))
      else Except.ok (t, tasks) := by
  have hid : t.id = id := (selectTask_some_mem tasks id t h).2
  have hmap : selectTask
      (tasks.map fun x => if x.id == id then apply_updates u tnow x else x) id
      = some (apply_updates u tnow t) := by
    rw [selectTask_map]
    · rw [h]
      simp [hid]
    · intro x
      split_ifs <;> simp [apply_updates_id]
  unfold update_task
  rw [h]
  cases hu : hasUpdates u
  · simp [hu, h]
  · simp only [hu, if_true, hmap]

theorem delete_task_ok (tasks : List Task) (id : Nat) (tasks' : List Task)
    (h : delete_task tasks id = Except.ok tasks') :
    tasks' = tasks.filter (fun t => !(t.id == id)) ∧ ∀ t ∈ tasks', t.id ≠ id := by
  unfold delete_task at h
  split_ifs at h
  injection h with h'
  subst h'
  refine ⟨rfl, ?_⟩
  intro t ht
  have hm := List.mem_filter.mp ht
  simpa using hm.2

theorem delete_task_error_iff (tasks : List Task) (id : Nat) :
    delete_task tasks id = Except.error ApiError.notFound ↔ selectTask tasks id = none := by
  by_cases hc : tasks.countP (fun t => t.id == id) = 0
  · have hnone : selectTask tasks id = none := by
      apply selectTask_eq_none
      intro t ht
      have := List.countP_eq_zero.mp hc t ht
      simpa using this
    simp [delete_task, hc, hnone]
  · have hok : delete_task tasks id = Except.ok (tasks.filter fun t => !(t.id == id)) := by
      simp [delete_task, hc]
    rw [hok]
    constructor
    · intro h
      cases h
    · intro h
      exact absurd (List.countP_eq_zero.mpr (by
        intro x hx
        have hno := List.find?_eq_none.mp h x hx
        simpa using hno)) hc

/-! Helper lemmas about listing. -/

theorem sortDesc_sorted (l : List Task) : List.Sorted createdDesc (sortDesc l) :=
  List.sorted_insertionSort createdDesc l

theorem applyLimit_sublist (limit : Option Int) (l : List Task) :
    List.Sublist (applyLimit limit l) l := by
  cases limit with
  | none => exact List.Sublist.refl l
  | some n =>
    simp only [applyLimit]
    split_ifs
    · exact List.Sublist.refl l
    · exact List.Sublist.refl l
    · exact List.take_sublist _ l

theorem mem_list_tasks_filter (tasks : List Task) (status : Option String)
    (limit : Option Int) (t : Task) (ht : t ∈ list_tasks tasks status limit) :
    t ∈ filterStatus status tasks := by
  have h1 : t ∈ sortDesc (filterStatus status tasks) :=
    (applyLimit_sublist limit _).subset ht
  simpa [sortDesc] using h1

/-! The reachability invariant. -/

theorem store_map_preserve (store : List Task) (f : Task → Task)
    (hf : ∀ t, (f t).id = t.id) :
    (store.map f).map Task.id = store.map Task.id := by
  rw [List.map_map]
  exact List.map_congr_left (fun x _ => hf x)

theorem inv_init : Inv init := by
  simp [Inv, init]

theorem inv_preserve (s : Sys) (h : Inv s) (store' : List Task)
    (pending' : List (Nat × Nat)) (now' : Nat)
    (hid : List.Sublist (store'.map Task.id) (s.store.map Task.id))
    (hfields : ∀ t' ∈ store', ∃ t ∈ s.store, t'.id = t.id ∧ t'.created_at = t.created_at)
    (hp : pending' ⊆ s.pending) :
    Inv { store := store', now := now', nextId := s.nextId,
          pending := pending', createdIds := s.createdIds } := by
  obtain ⟨h1, h2, h3, h4, h5⟩ := h
  refine ⟨?_, h2, h3.sublist hid, ?_, ?_⟩
  · intro t ht
    obtain ⟨t0, ht0, hid0, -⟩ := hfields t ht
    rw [hid0]
    exact h1 t0 ht0
  · intro p hpp
    exact h4 p (hp hpp)
  · intro p hpp t ht htid
    obtain ⟨t0, ht0, hid0, hcr0⟩ := hfields t ht
    rw [hcr0]
    exact h5 p (hp hpp) t0 ht0 (hid0.symm.trans htid)

theorem inv_create (s : Sys) (h : Inv s) (name : Option String) :
    Inv (create_task s name).2 := by
  obtain ⟨h1, h2, h3, h4, h5⟩ := h
  simp only [create_task, Inv]
  refine ⟨?_, ?_, ?_, ?_, ?_⟩
  · intro t ht
    rcases List.mem_append.mp ht with ht | ht
    · exact Nat.lt_succ_of_lt (h1 t ht)
    · rw [List.mem_singleton.mp ht]
      exact Nat.lt_succ_self _
  · intro i hi
    rcases List.mem_append.mp hi with hi | hi
    · exact Nat.lt_succ_of_lt (h2 i hi)
    · rw [List.mem_singleton.mp hi]
      exact Nat.lt_succ_self _
  · rw [List.map_append, List.nodup_append]
    refine ⟨h3, List.nodup_singleton _, ?_⟩
    intro x hx hx2
    obtain ⟨t, ht, rfl⟩ := List.mem_map.mp hx
    have hlt := h1 t ht
    have hx3 : t.id = s.nextId := by simpa using hx2
    omega
  · intro p hpp
    rcases List.mem_append.mp hpp with hpp | hpp
    · exact Nat.lt_succ_of_lt (h4 p hpp)
    · rw [List.mem_singleton.mp hpp]
      exact Nat.lt_succ_self _
  · intro p hpp t ht htid
    rcases List.mem_append.mp hpp with hpp | hpp
    · rcases List.mem_append.mp ht with ht | ht
      · exact h5 p hpp t ht htid
      · have hplt := h4 p hpp
        have hid2 : t.id = s.nextId := by
          rw [List.mem_singleton.mp ht]
        omega
    · have hp2 : p = (s.now + DELAY, s.nextId) := List.mem_singleton.mp hpp
      rcases List.mem_append.mp ht with ht | ht
      · have hlt := h1 t ht
        have hid2 : t.id = s.nextId := by simpa [hp2] using htid
        omega
      · rw [hp2, List.mem_singleton.mp ht]

theorem inv_step (s s' : Sys) (h : Inv s) (hs : Step s s') : Inv s' := by
  cases hs with
  | create name => exact inv_create s h name
  | tick dt =>
      exact inv_preserve s h s.store s.pending (s.now + dt) (List.Sublist.refl _)
        (fun t ht => ⟨t, ht, rfl, rfl⟩) (fun p hp => hp)
  | fire ft id hmem hdue =>
      have hf : ∀ t : Task,
          ((fun t : Task => if t.id == id then
              { t with status := "completed", completed_at := some s.now } else t) t).id
            = t.id := by
        intro t
        dsimp only
        split_ifs <;> rfl
      refine inv_preserve s h _ _ _ ?_ ?_ (List.erase_subset _ _)
      · unfold complete_task
        rw [store_map_preserve _ _ hf]
      · intro t' ht'
        unfold complete_task at ht'
        obtain ⟨t, ht, rfl⟩ := List.mem_map.mp ht'
        refine ⟨t, ht, ?_, ?_⟩ <;> dsimp only <;> split_ifs <;> rfl
  | update id u t' store' hupd =>
      cases hsel : selectTask s.store id with
      | none =>
          unfold update_task at hupd
          rw [hsel] at hupd
          cases hupd
      | some t0 =>
          rw [update_task_eq s.store s.now id u t0 hsel] at hupd
          have hf : ∀ t : Task,
              ((fun x : Task => if x.id == id then apply_updates u s.now x else x) t).id
                = t.id := by
            intro t
            dsimp only
            split_ifs <;> simp [apply_updates_id]
          cases hu : hasUpdates u
          · rw [hu] at hupd
            simp only [Bool.false_eq_true, if_false, Except.ok.injEq, Prod.mk.injEq] at hupd
            obtain ⟨-, rfl⟩ := hupd
            exact inv_preserve s h _ _ _ (List.Sublist.refl _)
              (fun t ht => ⟨t, ht, rfl, rfl⟩) (fun p hp => hp)
          · rw [hu] at hupd
            simp only [if_true, Except.ok.injEq, Prod.mk.injEq] at hupd
            obtain ⟨-, rfl⟩ := hupd
            refine inv_preserve s h _ _ _ ?_ ?_ (fun p hp => hp)
            · rw [store_map_preserve _ _ hf]
            · intro t2 ht2
              obtain ⟨t, ht, rfl⟩ := List.mem_map.mp ht2
              refine ⟨t, ht, ?_, ?_⟩ <;> dsimp only <;> split_ifs <;>
                simp [apply_updates_id, apply_updates_created]
  | delete id store' hdel =>
      obtain ⟨rfl, -⟩ := delete_task_ok s.store id store' hdel
      refine inv_preserve s h _ _ _ ?_ ?_ (fun p hp => hp)
      · exact (List.filter_sublist s.store).map Task.id
      · intro t ht
        exact ⟨t, (List.mem_filter.mp ht).1, rfl, rfl⟩

theorem reachable_inv (s : Sys) (h : Reachable s) : Inv s := by
  induction h with
  | init => exact inv_init
  | step hr hs ih => exact inv_step _ _ ih hs

/-! Characterisation of the partial-update row transformation. -/

theorem apply_updates_cases (u : TaskUpdate) (tnow : Nat) (t : Task) :
    (apply_updates u tnow t).id = t.id
    ∧ (apply_updates u tnow t).created_at = t.created_at
    ∧ (apply_updates u tnow t).status
        = (match u.status with
           | some st => if st = "" then t.status else st
           | none => t.status)
    ∧ (apply_updates u tnow t).completed_at
        = (match u.status with
           | some st => if st = "" then t.completed_at
               else if st = "completed" then some tnow else t.completed_at
           | none => t.completed_at)
    ∧ (apply_updates u tnow t).name
        = (match u.name with
           | some nm => if nm = "" then t.name else some nm
           | none => t.name) := by
  rcases u with ⟨us, un⟩
  cases us <;> cases un <;> simp only [apply_updates] <;>
    first
      | (split_ifs <;> simp_all)
      | simp_all

/-- C4: each of get, update and delete raises the 404 NotFound error
exactly when no record with the given id is stored at the time of the
call, and none of them errors when the record exists. -/
theorem c4_notfound_iff_absent (tasks : List Task) (tnow id : Nat) (u : TaskUpdate) :
    (get_task tasks id = Except.error ApiError.notFound ↔ selectTask tasks id = none)
    ∧ (update_task tasks tnow id u = Except.error ApiError.notFound
        ↔ selectTask tasks id = none)
    ∧ (delete_task tasks id = Except.error ApiError.notFound
        ↔ selectTask tasks id = none) := by
  refine ⟨?_, ?_, delete_task_error_iff tasks id⟩
  · cases hsel : selectTask tasks id with
    | none => simp [get_task, hsel]
    | some t => simp [get_task, hsel]
  · cases hsel : selectTask tasks id with
    | none => simp [update_task, hsel]
    | some t =>
        rw [update_task_eq tasks tnow id u t hsel]
        cases hu : hasUpdates u <;> simp [hsel]

/-- C5: an update whose status field is exactly "completed" stamps
completed_at to the update time in the same update — on every such call,
even when the task is already completed (any previously stored
completed_at is replaced by the new update time). -/
theorem c5_completed_always_stamps (tasks : List Task) (tnow id : Nat)
    (u : TaskUpdate) (t : Task) (hsel : selectTask tasks id = some t)
    (hst : u.status = some "completed") :
    ∃ tasks' : List Task,
      update_task tasks tnow id u = Except.ok (apply_updates u tnow t, tasks')
      ∧ (apply_updates u tnow t).status = "completed"
      ∧ (apply_updates u tnow t).completed_at = some tnow := by
  have hu : hasUpdates u = true := by
    simp [hasUpdates, strGiven, hst]
  obtain ⟨-, -, hstat, hca, -⟩ := apply_updates_cases u tnow t
  refine ⟨tasks.map (fun x => if x.id == id then apply_updates u tnow x else x), ?_, ?_, ?_⟩
  · rw [update_task_eq tasks tnow id u t hsel, hu]
    simp
  · rw [hstat, hst]
    simp
  · rw [hca, hst]
    simp

/-- C6: frame conditions of update — when status is not given (absent or
empty) both status and completed_at are unchanged; a status other than
"completed" never touches completed_at; a name not given is unchanged;
and id and created_at are never modified. -/
theorem c6_update_frame (tasks : List Task) (tnow id : Nat) (u : TaskUpdate)
    (t : Task) (hsel : selectTask tasks id = some t) :
    ∃ t' : Task, ∃ tasks' : List Task,
      update_task tasks tnow id u = Except.ok (t', tasks')
      ∧ t'.id = t.id
      ∧ t'.created_at = t.created_at
      ∧ (strGiven u.status = false → t'.status = t.status ∧ t'.completed_at = t.completed_at)
      ∧ (u.status ≠ some "completed" → t'.completed_at = t.completed_at)
      ∧ (strGiven u.name = false → t'.name = t.name) := by
  cases hu : hasUpdates u
  · refine ⟨t, tasks, ?_, rfl, rfl, fun _ => ⟨rfl, rfl⟩, fun _ => rfl, fun _ => rfl⟩
    rw [update_task_eq tasks tnow id u t hsel, hu]
    simp
  · obtain ⟨hid, hcr, hstat, hca, hname⟩ := apply_updates_cases u tnow t
    refine ⟨apply_updates u tnow t,
      tasks.map (fun x => if x.id == id then apply_updates u tnow x else x),
      ?_, hid, hcr, ?_, ?_, ?_⟩
    · rw [update_task_eq tasks tnow id u t hsel, hu]
      simp
    · intro hsg
      cases hus : u.status with
      | none =>
          rw [hus] at hstat hca
          exact ⟨hstat, hca⟩
      | some st =>
          have hse : st = "" := by
            rw [hus] at hsg
            simpa [strGiven] using hsg
          rw [hus, hse] at hstat hca
          simp only [if_pos rfl] at hstat hca
          exact ⟨hstat, hca⟩
    · intro hne
      cases hus : u.status with
      | none =>
          rw [hus] at hca
          exact hca
      | some st =>
          have hstne : st ≠ "completed" := by
            intro hc
            exact hne (by rw [hus, hc])
          rw [hus] at hca
          rw [hca]
          by_cases hse : st = ""
          · simp [hse]
          · simp [hse, hstne]
    · intro hng
      cases hun : u.name with
      | none =>
          rw [hun] at hname
          exact hname
      | some nm =>
          have hnme : nm = "" := by
            rw [hun] at hng
            simpa [strGiven] using hng
          rw [hun, hnme] at hname
          simpa using hname

/-- C7: absent or empty fields of the request are treated as not provided
and are not applied; in particular an update providing nothing is a no-op
on the store that still succeeds, returning the unchanged record. -/
theorem c7_falsy_fields_not_applied (tasks : List Task) (tnow id : Nat)
    (u : TaskUpdate) (t : Task) (hsel : selectTask tasks id = some t) :
    (∃ t' : Task, ∃ tasks' : List Task,
        update_task tasks tnow id u = Except.ok (t', tasks')
        ∧ (strGiven u.status = false → t'.status = t.status)
        ∧ (strGiven u.name = false → t'.name = t.name))
    ∧ (strGiven u.status = false → strGiven u.name = false →
        update_task tasks tnow id u = Except.ok (t, tasks)) := by
  constructor
  · cases hu : hasUpdates u
    · refine ⟨t, tasks, ?_, fun _ => rfl, fun _ => rfl⟩
      rw [update_task_eq tasks tnow id u t hsel, hu]
      simp
    · obtain ⟨-, -, hstat, -, hname⟩ := apply_updates_cases u tnow t
      refine ⟨apply_updates u tnow t,
        tasks.map (fun x => if x.id == id then apply_updates u tnow x else x),
        ?_, ?_, ?_⟩
      · rw [update_task_eq tasks tnow id u t hsel, hu]
        simp
      · intro hsg
        cases hus : u.status with
        | none =>
            rw [hus] at hstat
            exact hstat
        | some st =>
            have hse : st = "" := by
              rw [hus] at hsg
              simpa [strGiven] using hsg
            rw [hus, hse] at hstat
            simpa using hstat
      · intro hng
        cases hun : u.name with
        | none =>
            rw [hun] at hname
            exact hname
        | some nm =>
            have hnme : nm = "" := by
              rw [hun] at hng
              simpa [strGiven] using hng
            rw [hun, hnme] at hname
            simpa using hname
  · intro hs hn
    have hu : hasUpdates u = false := by
      simp [hasUpdates, hs, hn]
    rw [update_task_eq tasks tnow id u t hsel, hu]
    simp

/-- C8: after a successful delete of an id, a later run of the deferred
completion body for that id leaves the store unchanged — no error is
raised (the body is a total function) and no record is resurrected, so a
get of that id still reports NotFound. -/
theorem c8_delete_then_timer_noop (tasks : List Task) (tnow id : Nat)
    (tasks' : List Task) (hdel : delete_task tasks id = Except.ok tasks') :
    complete_task tasks' tnow id = tasks'
    ∧ get_task (complete_task tasks' tnow id) id = Except.error ApiError.notFound := by
  obtain ⟨-, hni⟩ := delete_task_ok tasks id tasks' hdel
  have hmap : complete_task tasks' tnow id = tasks' := by
    unfold complete_task
    apply map_id_of_mem
    intro t ht
    have hne := hni t ht
    simp [hne]
  refine ⟨hmap, ?_⟩
  rw [hmap]
  unfold get_task
  rw [selectTask_eq_none tasks' id hni]

/-! Listing claims. -/

theorem applyLimit_nil (limit : Option Int) : applyLimit limit [] = [] := by
  cases limit with
  | none => rfl
  | some n =>
    simp only [applyLimit]
    split_ifs <;> simp

/-- C1 fails as frozen at both falsy arguments, on a store holding the one
record (id 0, status "running").  First failure, limit: Python treats 0
as falsy, so main.py adds no LIMIT clause and a list call with limit 0
returns that record — more than 0 records.  Second failure, filter: the
empty string is falsy too, so main.py adds no WHERE clause and a list
call with status "" returns the running record, whose status is not
exactly "". -/
theorem c1_falsy_counterexample :
    ¬ ((list_tasks
        [{ id := 0, name := none, status := "running",
           created_at := 0, completed_at := none }] none (some 0)).length ≤ 0)
    ∧ ¬ (∀ t ∈ list_tasks
        [{ id := 0, name := none, status := "running",
           created_at := 0, completed_at := none }] (some "") none, t.status = "") := by
  constructor
  · decide
  · decide

/-- C1 (amended): list returns a sequence ordered by created_at descending;
with a nonempty status filter only records with exactly that status
appear, while an empty-string status filter is falsy in Python, filters
nothing, and yields the same listing as no filter; a limit N ≥ 1 caps
the result to the N most recent entries of the ordered filtered
sequence, while a limit of 0 is falsy, caps nothing, and yields the same
listing as no limit; when nothing matches the result is the empty
sequence, never an error. -/
theorem c1_list_ordered_filtered_capped (tasks : List Task)
    (status : Option String) (limit : Option Int) :
    List.Sorted createdDesc (list_tasks tasks status limit)
    ∧ (∀ st : String, status = some st → st ≠ "" →
        ∀ t ∈ list_tasks tasks status limit, t.status = st)
    ∧ (∀ n : Int, limit = some n → 1 ≤ n →
        (list_tasks tasks status limit).length ≤ n.toNat
        ∧ list_tasks tasks status limit
            = (sortDesc (filterStatus status tasks)).take n.toNat)
    ∧ list_tasks tasks status (some 0) = list_tasks tasks status none
    ∧ list_tasks tasks (some "") limit = list_tasks tasks none limit
    ∧ (∀ st : String, status = some st → st ≠ "" →
        (∀ t ∈ tasks, t.status ≠ st) → list_tasks tasks status limit = []) := by
  refine ⟨?_, ?_, ?_, ?_, ?_, ?_⟩
  · exact List.Pairwise.sublist (applyLimit_sublist limit _) (sortDesc_sorted _)
  · intro st hst hne t ht
    have hmem := mem_list_tasks_filter tasks status limit t ht
    rw [hst] at hmem
    simp only [filterStatus, if_neg hne] at hmem
    simpa using (List.mem_filter.mp hmem).2
  · intro n hn h1n
    subst hn
    have hne0 : ¬ (n = 0) := by omega
    have hneg : ¬ (n < 0) := by omega
    unfold list_tasks
    simp only [applyLimit, if_neg hne0, if_neg hneg]
    exact ⟨List.length_take_le _ _, trivial⟩
  · unfold list_tasks
    simp [applyLimit]
  · unfold list_tasks
    simp [filterStatus]
  · intro st hst hne hnone
    have hfil : filterStatus status tasks = [] := by
      rw [hst]
      simp only [filterStatus, if_neg hne]
      rw [List.filter_eq_nil_iff]
      intro t ht
      simpa using hnone t ht
    unfold list_tasks
    rw [hfil]
    exact applyLimit_nil limit

/-- C9: a negative limit is passed through unchecked and SQLite treats a
negative LIMIT as unlimited, so the listing equals the unlimited listing
under the same status filter. -/
theorem c9_negative_limit_uncapped (tasks : List Task) (status : Option String)
    (n : Int) (hn : n < 0) :
    list_tasks tasks status (some n) = list_tasks tasks status none := by
  have h0 : ¬ (n = 0) := by omega
  unfold list_tasks
  simp only [applyLimit, if_neg h0, if_pos hn]

/-! Creation and deferred-completion claims. -/

/-- C2: in every reachable state, create hands back a record whose id was
never generated before, with the given name, status "running",
created_at equal to the current time and completed_at absent; that exact
record is inserted in the store and returned while the completion timer
is still merely pending (armed for DELAY time units later). -/
theorem c2_create_fresh_running (s : Sys) (hr : Reachable s) (name : Option String) :
    (create_task s name).1.id ∉ s.createdIds
    ∧ (create_task s name).1.name = name
    ∧ (create_task s name).1.status = "running"
    ∧ (create_task s name).1.created_at = s.now
    ∧ (create_task s name).1.completed_at = none
    ∧ (create_task s name).1 ∈ (create_task s name).2.store
    ∧ (s.now + DELAY, (create_task s name).1.id) ∈ (create_task s name).2.pending := by
  obtain ⟨-, h2, -, -, -⟩ := reachable_inv s hr
  refine ⟨?_, rfl, rfl, rfl, rfl, ?_, ?_⟩
  · intro hmem
    exact absurd (h2 _ hmem) (lt_irrefl _)
  · simp [create_task]
  · simp [create_task]

/-- C3: in every reachable state, when a pending completion timer that is
due (its delay has elapsed) fires for a task still in the store, the
store afterwards holds that task with status "completed" and
completed_at set to the firing time, which is at least its created_at. -/
theorem c3_timer_completes (s : Sys) (hr : Reachable s) (ft id : Nat)
    (hmem : (ft, id) ∈ s.pending) (hdue : ft ≤ s.now)
    (t : Task) (ht : t ∈ s.store) (hid : t.id = id) :
    selectTask (complete_task s.store s.now id) id
      = some { t with status := "completed", completed_at := some s.now }
    ∧ t.created_at ≤ s.now := by
  obtain ⟨-, -, h3, -, h5⟩ := reachable_inv s hr
  have hft : ft = t.created_at + DELAY := h5 (ft, id) hmem t ht hid
  constructor
  · have hmap := selectTask_map s.store
      (fun t : Task => if t.id == id then
        { t with status := "completed", completed_at := some s.now } else t)
      (fun t => by dsimp only; split_ifs <;> rfl) id
    unfold complete_task
    rw [hmap, ← hid, selectTask_eq_some_of_mem s.store t h3 ht]
    simp
  · omega

/-- C10: immediately after a create, a get of the returned id against the
new store yields exactly the returned record, field for field. -/
theorem c10_create_get_roundtrip (s : Sys) (hr : Reachable s) (name : Option String) :
    get_task (create_task s name).2.store (create_task s name).1.id
      = Except.ok (create_task s name).1 := by
  obtain ⟨h1, -, -, -, -⟩ := reachable_inv s hr
  have hsel : selectTask (create_task s name).2.store (create_task s name).1.id
      = some (create_task s name).1 := by
    unfold create_task selectTask
    dsimp only
    rw [List.find?_append]
    have hnone : List.find? (fun t : Task => t.id == s.nextId) s.store = none := by
      rw [List.find?_eq_none]
      intro t ht
      have hlt := h1 t ht
      simp only [beq_iff_eq]
      omega
    rw [hnone]
    simp
  unfold get_task
  rw [hsel]

/-! Concrete states and witnesses. -/

/-- Concrete three-row store used by the witnesses: ids 0, 1, 2 created at
times 0, 1, 2, the middle one already completed. -/
def demoTasks : List Task :=
  [{ id := 0, name := some "build", status := "running", created_at := 0, completed_at := none },
   { id := 1, name := none, status := "completed", created_at := 1, completed_at := some 3 },
   { id := 2, name := none, status := "running", created_at := 2, completed_at := none }]

/-- One-task reachable system: a single create against the initial state. -/
def demo1 : Sys := (create_task init none).2

/-- The same one-task system after the 20-unit delay has elapsed. -/
def demo2 : Sys := { demo1 with now := demo1.now + 20 }

theorem demo1_reachable : Reachable demo1 :=
  Reachable.step Reachable.init (Step.create init none)

theorem demo2_reachable : Reachable demo2 :=
  Reachable.step demo1_reachable (Step.tick demo1 20)

/-- Witness for the amended C1 at the concrete store: a limit of 2 with the
"running" filter caps the result to the two most recent running rows. -/
theorem c1_list_witness :
    (list_tasks demoTasks (some "running") (some 2)).length ≤ (2 : Int).toNat
    ∧ list_tasks demoTasks (some "running") (some 2)
        = (sortDesc (filterStatus (some "running") demoTasks)).take (2 : Int).toNat :=
  (c1_list_ordered_filtered_capped demoTasks (some "running") (some 2)).2.2.1 2 rfl
    (by decide)

/-- Witness for C2 at the initial state with name "build". -/
theorem c2_create_witness :
    (create_task init (some "build")).1.id ∉ init.createdIds
    ∧ (create_task init (some "build")).1.name = some "build"
    ∧ (create_task init (some "build")).1.status = "running"
    ∧ (create_task init (some "build")).1.created_at = init.now
    ∧ (create_task init (some "build")).1.completed_at = none
    ∧ (create_task init (some "build")).1 ∈ (create_task init (some "build")).2.store
    ∧ (init.now + DELAY, (create_task init (some "build")).1.id)
        ∈ (create_task init (some "build")).2.pending :=
  c2_create_fresh_running init Reachable.init (some "build")

/-- Witness for C3: the timer armed by the one create fires at time 20 and
completes task 0. -/
theorem c3_timer_witness :
    selectTask (complete_task demo2.store demo2.now 0) 0
      = some { id := 0, name := none, status := "completed",
               created_at := 0, completed_at := some demo2.now }
    ∧ (0 : Nat) ≤ demo2.now :=
  c3_timer_completes demo2 demo2_reachable 20 0 (by decide) (by decide)
    { id := 0, name := none, status := "running", created_at := 0, completed_at := none }
    (by decide) rfl

/-- Witness for C4 at id 7, which is not stored. -/
theorem c4_notfound_witness :
    (get_task demoTasks 7 = Except.error ApiError.notFound ↔ selectTask demoTasks 7 = none)
    ∧ (update_task demoTasks 5 7 { status := some "done", name := none }
        = Except.error ApiError.notFound ↔ selectTask demoTasks 7 = none)
    ∧ (delete_task demoTasks 7 = Except.error ApiError.notFound
        ↔ selectTask demoTasks 7 = none) :=
  c4_notfound_iff_absent demoTasks 5 7 { status := some "done", name := none }

/-- Witness for C5: task 1 is already completed with completed_at 3, yet an
explicit status "completed" update at time 9 re-stamps completed_at to 9. -/
theorem c5_completed_witness :
    ∃ tasks' : List Task,
      update_task demoTasks 9 1 { status := some "completed", name := none }
        = Except.ok (apply_updates { status := some "completed", name := none } 9
            { id := 1, name := none, status := "completed", created_at := 1,
              completed_at := some 3 }, tasks')
      ∧ (apply_updates { status := some "completed", name := none } 9
          { id := 1, name := none, status := "completed", created_at := 1,
            completed_at := some 3 }).status = "completed"
      ∧ (apply_updates { status := some "completed", name := none } 9
          { id := 1, name := none, status := "completed", created_at := 1,
            completed_at := some 3 }).completed_at = some 9 :=
  c5_completed_always_stamps demoTasks 9 1 { status := some "completed", name := none }
    { id := 1, name := none, status := "completed", created_at := 1, completed_at := some 3 }
    (by decide) rfl

/-- Witness for C6: updating task 0 with the non-"completed" status "done"
keeps completed_at absent, keeps the name, and never touches id or
created_at. -/
theorem c6_update_frame_witness :
    ∃ t' : Task, ∃ tasks' : List Task,
      update_task demoTasks 5 0 { status := some "done", name := none }
        = Except.ok (t', tasks')
      ∧ t'.id = 0
      ∧ t'.created_at = 0
      ∧ (strGiven (some "done") = false → t'.status = "running" ∧ t'.completed_at = none)
      ∧ ((some "done" : Option String) ≠ some "completed" → t'.completed_at = none)
      ∧ (strGiven (none : Option String) = false → t'.name = some "build") :=
  c6_update_frame demoTasks 5 0 { status := some "done", name := none }
    { id := 0, name := some "build", status := "running", created_at := 0, completed_at := none }
    (by decide)

/-- Witness for C7: an update of task 2 providing no field succeeds as a
no-op, returning the unchanged record and store. -/
theorem c7_noop_witness :
    (∃ t' : Task, ∃ tasks' : List Task,
        update_task demoTasks 5 2 { status := none, name := none } = Except.ok (t', tasks')
        ∧ (strGiven (none : Option String) = false → t'.status = "running")
        ∧ (strGiven (none : Option String) = false → t'.name = none))
    ∧ (strGiven (none : Option String) = false → strGiven (none : Option String) = false →
        update_task demoTasks 5 2 { status := none, name := none }
          = Except.ok ({ id := 2, name := none, status := "running",
                         created_at := 2, completed_at := none }, demoTasks)) :=
  c7_falsy_fields_not_applied demoTasks 5 2 { status := none, name := none }
    { id := 2, name := none, status := "running", created_at := 2, completed_at := none }
    (by decide)

/-- Witness for C8: delete the only task, then run the completion body at
time 30 — the store stays empty and get still reports NotFound. -/
theorem c8_delete_witness :
    complete_task [] 30 0 = []
    ∧ get_task (complete_task [] 30 0) 0 = Except.error ApiError.notFound :=
  c8_delete_then_timer_noop
    [{ id := 0, name := none, status := "running", created_at := 0, completed_at := none }]
    30 0 [] rfl

/-- Witness for C9: limit -1 behaves as no limit on the concrete store. -/
theorem c9_negative_limit_witness :
    list_tasks demoTasks (some "running") (some (-1))
      = list_tasks demoTasks (some "running") none :=
  c9_negative_limit_uncapped demoTasks (some "running") (-1) (by decide)

/-- Witness for C10 at the initial state with name "x". -/
theorem c10_roundtrip_witness :
    get_task (create_task init (some "x")).2.store (create_task init (some "x")).1.id
      = Except.ok (create_task init (some "x")).1 :=
  c10_create_get_roundtrip init Reachable.init (some "x")

end TaskAPI
